import Mathlib

/-!
# Verification of the tool-augmented conversation orchestrator

Shallow embedding of `src/llm-server/llm/llm_service.py` and
`src/llm-server/mcp_http_client.py` (the "hack-2025-cx-chatbot" repository).

Modelling conventions:
* Python JSON values (the payloads decoded by `response.json()`, the value
  produced by `json.loads`, message `content` values) are modelled by the
  inductive type `JValue`.  Python `None` is `JValue.null`.
* A transcript entry (a Python dict) is modelled by the structure `Message`.
  A missing `"role"` key behaves, in every place the source reads it
  (`.get("role")` compared against `"system"`), exactly like a role that is
  not `"system"`; it is modelled as the empty string.  A missing `"content"`
  key is modelled as `JValue.null` (the source only reads `content` on the
  system slot and on completion replies, where the key is present).
  `tool_calls` is an `Option` because the source tests key presence
  (`"tool_calls" in assistant_message`) before truthiness.
* The external world (the MCP tool provider reached over HTTP, the
  OpenRouter completion endpoint, and the Python `json.loads` parser) is an
  explicit environment `Env` passed to the orchestrator.  An HTTP exchange
  either raises (network error, timeout, or a non-success status turned into
  an exception by `raise_for_status` / the explicit status check) or yields
  a decoded JSON body; a completion call either raises, returns a dict
  carrying an `"error"` field, or returns a first-choice message.
* Every `try/except` of the source becomes an explicit `match` on an
  `Except`-shaped value; the conversation accumulated before the raise is
  carried into the handler, exactly as the mutable `current_conversation`
  list is in Python.
-/

/-- JSON values as decoded by `response.json()` / produced by `json.loads`. -/
inductive JValue where
  | null : JValue
  | bool : Bool → JValue
  | num : Int → JValue
  | str : String → JValue
  | arr : List JValue → JValue
  | obj : List (String × JValue) → JValue

mutual

/-- Boolean equality on JSON values. -/
def JValue.beq : JValue → JValue → Bool
  | .null, .null => true
  | .bool a, .bool b => a == b
  | .num a, .num b => a == b
  | .str a, .str b => a == b
  | .arr xs, .arr ys => JValue.beqList xs ys
  | .obj fs, .obj gs => JValue.beqFields fs gs
  | _, _ => false

/-- Boolean equality on lists of JSON values. -/
def JValue.beqList : List JValue → List JValue → Bool
  | [], [] => true
  | x :: xs, y :: ys => JValue.beq x y && JValue.beqList xs ys
  | _, _ => false

/-- Boolean equality on JSON object field lists. -/
def JValue.beqFields : List (String × JValue) → List (String × JValue) → Bool
  | [], [] => true
  | (k, v) :: fs, (l, w) :: gs =>
      k == l && JValue.beq v w && JValue.beqFields fs gs
  | _, _ => false

end

mutual

def JValue.eq_of_beq : ∀ (a b : JValue), JValue.beq a b = true → a = b
  | .null, .null, _ => rfl
  | .bool a, .bool b, h => by
      simp only [JValue.beq, beq_iff_eq] at h; exact h ▸ rfl
  | .num a, .num b, h => by
      simp only [JValue.beq, beq_iff_eq] at h; exact h ▸ rfl
  | .str a, .str b, h => by
      simp only [JValue.beq, beq_iff_eq] at h; exact h ▸ rfl
  | .arr xs, .arr ys, h => by
      rw [JValue.eqList_of_beqList xs ys (by simpa [JValue.beq] using h)]
  | .obj fs, .obj gs, h => by
      rw [JValue.eqFields_of_beqFields fs gs (by simpa [JValue.beq] using h)]
  | .null, .bool _, h | .null, .num _, h | .null, .str _, h
  | .null, .arr _, h | .null, .obj _, h
  | .bool _, .null, h | .bool _, .num _, h | .bool _, .str _, h
  | .bool _, .arr _, h | .bool _, .obj _, h
  | .num _, .null, h | .num _, .bool _, h | .num _, .str _, h
  | .num _, .arr _, h | .num _, .obj _, h
  | .str _, .null, h | .str _, .bool _, h | .str _, .num _, h
  | .str _, .arr _, h | .str _, .obj _, h
  | .arr _, .null, h | .arr _, .bool _, h | .arr _, .num _, h
  | .arr _, .str _, h | .arr _, .obj _, h
  | .obj _, .null, h | .obj _, .bool _, h | .obj _, .num _, h
  | .obj _, .str _, h | .obj _, .arr _, h => by simp [JValue.beq] at h

def JValue.eqList_of_beqList :
    ∀ (xs ys : List JValue), JValue.beqList xs ys = true → xs = ys
  | [], [], _ => rfl
  | x :: xs, y :: ys, h => by
      simp only [JValue.beqList, Bool.and_eq_true] at h
      rw [JValue.eq_of_beq x y h.1, JValue.eqList_of_beqList xs ys h.2]
  | [], _ :: _, h | _ :: _, [], h => by simp [JValue.beqList] at h

def JValue.eqFields_of_beqFields :
    ∀ (fs gs : List (String × JValue)), JValue.beqFields fs gs = true → fs = gs
  | [], [], _ => rfl
  | (k, v) :: fs, (l, w) :: gs, h => by
      simp only [JValue.beqFields, Bool.and_eq_true, beq_iff_eq] at h
      rw [h.1.1, JValue.eq_of_beq v w h.1.2, JValue.eqFields_of_beqFields fs gs h.2]
  | [], _ :: _, h | _ :: _, [], h => by simp [JValue.beqFields] at h

end

mutual

def JValue.beq_refl : ∀ (a : JValue), JValue.beq a a = true
  | .null => rfl
  | .bool a => by simp [JValue.beq]
  | .num a => by simp [JValue.beq]
  | .str a => by simp [JValue.beq]
  | .arr xs => by simpa [JValue.beq] using JValue.beqList_refl xs
  | .obj fs => by simpa [JValue.beq] using JValue.beqFields_refl fs

def JValue.beqList_refl : ∀ (xs : List JValue), JValue.beqList xs xs = true
  | [] => rfl
  | x :: xs => by
      simp only [JValue.beqList, Bool.and_eq_true]
      exact ⟨JValue.beq_refl x, JValue.beqList_refl xs⟩

def JValue.beqFields_refl :
    ∀ (fs : List (String × JValue)), JValue.beqFields fs fs = true
  | [] => rfl
  | (k, v) :: fs => by
      simp only [JValue.beqFields, Bool.and_eq_true, beq_self_eq_true]
      exact ⟨⟨trivial, JValue.beq_refl v⟩, JValue.beqFields_refl fs⟩

end

instance : BEq JValue := ⟨JValue.beq⟩

instance : DecidableEq JValue := fun a b =>
  if h : JValue.beq a b = true then .isTrue (JValue.eq_of_beq a b h)
  else .isFalse (fun he => h (he ▸ JValue.beq_refl a))

namespace JValue

/-- Python truthiness of a JSON value (`if jsonrpc_response and ...`). -/
def truthy : JValue → Bool
  | .null => false
  | .bool b => b
  | .num n => n != 0
  | .str s => s != ""
  | .arr xs => !xs.isEmpty
  | .obj fs => !fs.isEmpty

/-- Dictionary field lookup: `d[k]` on a JSON object (first binding wins,
as in a Python dict there is at most one). `none` models a `KeyError` /
`TypeError` on a non-object. -/
def getField : JValue → String → Option JValue
  | .obj fs, k => (fs.find? (fun p => p.1 == k)).map Prod.snd
  | _, _ => none

/-- Python `k in d`: key membership for dicts, element membership for
lists, substring for strings; anything else raises `TypeError`
(modelled as an error). -/
def hasKey : JValue → String → Except String Bool
  | .obj fs, k => .ok (fs.any (fun p => p.1 == k))
  | .arr xs, k => .ok (xs.contains (.str k))
  | .str s, k => .ok ((s.splitOn k).length > 1)
  | _, _ => .error "TypeError: argument is not iterable"

/-- Python `for x in v`: iterates elements of a list, keys of a dict,
characters of a string; anything else raises `TypeError`. -/
def iterate : JValue → Except String (List JValue)
  | .arr xs => .ok xs
  | .obj fs => .ok (fs.map (fun p => .str p.1))
  | .str s => .ok (s.toList.map (fun c => .str (String.mk [c])))
  | _ => .error "TypeError: object is not iterable"

end JValue

/-- One entry of a tool call as delivered inside an assistant message:
`tool_call["function"]` with its `name` and `arguments` (a JSON string that
the orchestrator passes to `json.loads`). -/
structure ToolCallFunction where
  name : String
  arguments : String
deriving DecidableEq

/-- One tool call requested by the completion service:
`{"id": ..., "function": {"name": ..., "arguments": ...}}`. -/
structure ToolCall where
  id : String
  function : ToolCallFunction
deriving DecidableEq

/-- One transcript entry (a Python message dict).  See the module comment
for how missing keys are modelled. -/
structure Message where
  role : String
  content : JValue
  tool_calls : Option (List ToolCall) := none
  tool_call_id : Option String := none
  name : Option String := none
deriving DecidableEq

/-- The text of the canonical system directive (`SYSTEM_PROMPT["content"]`,
`llm_service.py` lines 17-29). -/
def SYSTEM_PROMPT_CONTENT : String :=
  "You are a customer service expert for \x27Happy Returns\x27. " ++
  "Your sole responsibility is to provide information about the status of customer returns. " ++
  "You have access to tools that can look up return information when a customer provides a confirmation code. " ++
  "Always use the get_return_by_confirmation_code tool when a customer mentions their confirmation code (an 8-character string starting with \x27HR\x27). " ++
  "You must not answer any questions or engage in conversations on any other topic. " ++
  "If a customer asks about something other than a return status, " ++
  "politely state that you can only help with return status inquiries. " ++
  "Be courteous and professional in all your responses."

/-- The canonical system message (`SYSTEM_PROMPT`, `llm_service.py` lines 17-29). -/
def SYSTEM_PROMPT : Message :=
  { role := "system", content := .str SYSTEM_PROMPT_CONTENT }

/-- The fixed fallback reply appended by the `except` handlers
(`llm_service.py` lines 151, 246). -/
def FALLBACK_TEXT : String :=
  "I\x27m sorry, but I\x27m unable to process your request at the moment."

/-- The fallback assistant message appended by the `except` handlers. -/
def fallbackMessage : Message :=
  { role := "assistant", content := .str FALLBACK_TEXT }

/-- The user message appended for the incoming query
(`llm_service.py` lines 121 / 179). -/
def userMessage (customer_query : String) : Message :=
  { role := "user", content := .str customer_query }

/-- Transcript seeding, `llm_service.py` lines 113-117 and 172-176 (the
identical inlined block of both orchestrator functions): prepend the
canonical system message when the history is empty or does not start with a
system message; replace the head when it is a system message whose content
differs from the canonical text.  The source operates on `list(chat_history)`,
a fresh copy, so the embedding is a pure function of the input list. -/
def seed (chat_history : List Message) : List Message :=
  match chat_history with
  | [] => [SYSTEM_PROMPT]
  | m :: rest =>
    if m.role ≠ "system" then SYSTEM_PROMPT :: m :: rest
    else if m.content ≠ SYSTEM_PROMPT.content then SYSTEM_PROMPT :: rest
    else m :: rest

/-- `d[k]`: field access that raises (`KeyError` on a missing key,
`TypeError` on a non-dict) when it cannot produce a value. -/
def getItem (v : JValue) (k : String) : Except String JValue :=
  match v.getField k with
  | some x => .ok x
  | none => .error ("KeyError: " ++ k)

/-- One tool entry translated to the OpenRouter function-calling shape:
the inner `{"name": ..., "description": ..., "parameters": ...}` dict built
at `llm_service.py` lines 52-56. -/
structure ORToolFunction where
  name : JValue
  description : JValue
  parameters : JValue
deriving DecidableEq

/-- One translated tool: `{"type": "function", "function": {...}}`
(`llm_service.py` lines 50-57). -/
structure ORTool where
  type : String
  function : ORToolFunction
deriving DecidableEq

/-- The body of the `for tool in ...` loop (`llm_service.py` lines 49-57):
reads `tool["name"]`, `tool["description"]`, `tool["inputSchema"]` and
builds the OpenRouter-shaped entry; a missing key or non-dict entry raises. -/
def transformTool (tool : JValue) : Except String ORTool :=
  match getItem tool "name" with
  | .error e => .error e
  | .ok n =>
    match getItem tool "description" with
    | .error e => .error e
    | .ok d =>
      match getItem tool "inputSchema" with
      | .error e => .error e
      | .ok s =>
        .ok { type := "function",
              function := { name := n, description := d, parameters := s } }

/-- The guard of `transform_jsonrpc_to_openrouter_tools` (`llm_service.py`
lines 44-46): the short-circuit conjunction `jsonrpc_response and "result"
in jsonrpc_response and "tools" in jsonrpc_response["result"]`; any raise
inside it propagates. -/
def transformGuard (jsonrpc_response : JValue) : Except String Bool :=
  if !jsonrpc_response.truthy then .ok false
  else
    match jsonrpc_response.hasKey "result" with
    | .error e => .error e
    | .ok false => .ok false
    | .ok true =>
      match getItem jsonrpc_response "result" with
      | .error e => .error e
      | .ok r => r.hasKey "tools"

/-- `transform_jsonrpc_to_openrouter_tools` (`llm_service.py` lines 31-59).
Returns the translated tool list, or the message of the Python exception the
function would raise (`KeyError`/`TypeError` inside the guard or the loop). -/
def transform_jsonrpc_to_openrouter_tools (jsonrpc_response : JValue) :
    Except String (List ORTool) :=
  match transformGuard jsonrpc_response with
  | .error e => .error e
  | .ok false => .ok []
  | .ok true =>
    match getItem jsonrpc_response "result" with
    | .error e => .error e
    | .ok r =>
      match getItem r "tools" with
      | .error e => .error e
      | .ok ts =>
        match ts.iterate with
        | .error e => .error e
        | .ok items => items.mapM transformTool

/-- Outcome of one HTTP exchange as seen by the caller of `httpx`:
either the request raised (network error, timeout, undecodable body), or a
response with a status code and decoded JSON body came back. -/
inductive HttpOutcome where
  | exn (msg : String)
  | resp (status : Nat) (body : JValue)
deriving DecidableEq

/-- `response.raise_for_status()` followed by `response.json()`: raises
unless the status is a success (2xx) status. -/
def raise_for_status (outcome : HttpOutcome) : Except String JValue :=
  match outcome with
  | .exn msg => .error msg
  | .resp status body =>
    if 200 ≤ status && status < 300 then .ok body
    else .error ("HTTP status error: " ++ toString status)

/-- The value returned by `list_tools` (`llm_service.py` lines 61-91):
either the translated tool list, or — from the `except` handler — the dict
`{"error": str(e)}`. -/
inductive ListToolsResult where
  | tools (ts : List ORTool)
  | errorDict (msg : String)
deriving DecidableEq

/-- `list_tools` (`llm_service.py` lines 61-91): POST the discovery payload
to the MCP server; on any exception (network failure, timeout, non-success
status via `raise_for_status`, or an exception inside the transform) return
`{"error": str(e)}`; otherwise return the transformed tool list. -/
def list_tools (discovery : HttpOutcome) : ListToolsResult :=
  match raise_for_status discovery with
  | .error msg => .errorDict msg
  | .ok body =>
    match transform_jsonrpc_to_openrouter_tools body with
    | .ok ts => .tools ts
    | .error e => .errorDict e

/-- `MCPHTTPClient.call_tool` (`mcp_http_client.py` lines 64-97): POST the
`{"name", "arguments"}` payload to `/tools/{name}/invoke`; a 200 response
yields its decoded JSON body; any other status raises, and the `except`
handler logs and re-raises, so every failure propagates to the caller.
(The sampling callback is `None` in this deployment and has no effect on
the returned value.) -/
def MCPHTTPClient.call_tool (outcome : HttpOutcome) (tool_name : String) :
    Except String JValue :=
  match outcome with
  | .exn msg => .error ("Error calling tool " ++ tool_name ++ ": " ++ msg)
  | .resp status body =>
    if status == 200 then .ok body
    else .error ("Failed to call tool " ++ tool_name ++ ": " ++ toString status)

/-- Outcome of one `openai.ChatCompletion.create` call:
`exn` — the call raised, or the reply was structurally malformed so that
extracting `["choices"][0]["message"]` raised;
`errorField` — the returned dict carried an `"error"` field (turned into
`raise Exception(...)` at `llm_service.py` lines 196-197);
`reply m` — the first choice's message. -/
inductive CompletionOutcome where
  | exn (msg : String)
  | errorField (msg : String)
  | reply (message : Message)
deriving DecidableEq

/-- The keyword arguments handed to `openai.ChatCompletion.create`.
`tools = none` models the `tools` keyword not being passed at all (and so
the field being absent from the request body); likewise `tool_choice`. -/
structure CompletionRequest where
  model : String
  messages : List Message
  max_tokens : Nat
  tools : Option ListToolsResult := none
  tool_choice : Option String := none
deriving DecidableEq

/-- The external world of one turn of
`get_return_status_response_with_tools`: the discovery exchange, the two
completion calls, the per-call tool-invocation exchanges (indexed by the
position of the tool call in the reply), and the `json.loads` parser. -/
structure Env where
  mcpDiscovery : HttpOutcome
  firstCompletion : CompletionOutcome
  jsonLoads : String → Except String JValue
  toolHttp : Nat → HttpOutcome
  secondCompletion : CompletionOutcome

mutual

/-- `json.dumps` with the default separators. -/
def JValue.dumps : JValue → String
  | .null => "null"
  | .bool true => "true"
  | .bool false => "false"
  | .num n => toString n
  | .str s => "\"" ++ s ++ "\""
  | .arr xs => "[" ++ JValue.dumpsList xs ++ "]"
  | .obj fs => "\x7b" ++ JValue.dumpsFields fs ++ "\x7d"

/-- `json.dumps` of the elements of a list. -/
def JValue.dumpsList : List JValue → String
  | [] => ""
  | [x] => JValue.dumps x
  | x :: xs => JValue.dumps x ++ ", " ++ JValue.dumpsList xs

/-- `json.dumps` of the fields of an object. -/
def JValue.dumpsFields : List (String × JValue) → String
  | [] => ""
  | [(k, v)] => "\"" ++ k ++ "\": " ++ JValue.dumps v
  | (k, v) :: fs =>
      "\"" ++ k ++ "\": " ++ JValue.dumps v ++ ", " ++ JValue.dumpsFields fs

end

/-- The tool-result message appended for a successful invocation
(`llm_service.py` lines 218-223): role `tool`, the id of the requested
call, the invoked function name, and the result serialised with
`json.dumps` when it is a dict, otherwise taken as-is. -/
def toolMessage (tool_call : ToolCall) (tool_result : JValue) : Message :=
  { role := "tool",
    tool_call_id := some tool_call.id,
    name := some tool_call.function.name,
    content :=
      match tool_result with
      | .obj fs => .str (JValue.dumps (.obj fs))
      | v => v }

/-- One iteration of the tool-call loop (`llm_service.py` lines 208-223):
parse the arguments with `json.loads`, invoke the tool through the MCP
client, and build the tool-result message; either step may raise. -/
def execCall (env : Env) (i : Nat) (tool_call : ToolCall) : Except String Message :=
  match env.jsonLoads tool_call.function.arguments with
  | .error e => .error e
  | .ok _function_args =>
    match MCPHTTPClient.call_tool (env.toolHttp i) tool_call.function.name with
    | .error e => .error e
    | .ok tool_result => .ok (toolMessage tool_call tool_result)

/-- The tool-call loop (`llm_service.py` lines 208-223).  `conv` is the
mutable `current_conversation` at loop entry; a raise inside the loop
carries the conversation accumulated so far (`.error conv`) to the
function's `except` handler, while normal termination yields the
conversation with all result messages appended. -/
def runToolCalls (env : Env) (i : Nat) (conv : List Message) :
    List ToolCall → Except (List Message) (List Message)
  | [] => .ok conv
  | tc :: rest =>
    match execCall env i tc with
    | .error _ => .error conv
    | .ok m => runToolCalls env (i + 1) (conv ++ [m]) rest

/-- Everything observable about one turn of the tools orchestrator: the
returned pair `(response_text, conversation)`, plus — for verification —
the keyword arguments of the first completion call and of the second one
when it is issued. -/
structure TurnOutput where
  response_text : JValue
  conversation : List Message
  firstRequest : CompletionRequest
  secondRequest : Option CompletionRequest

/-- The `except` path of the orchestrator (`llm_service.py` lines 242-247):
append the fixed fallback assistant message to whatever conversation had
accumulated and return the fallback text. -/
def fallbackTurn (conv : List Message) (req : CompletionRequest)
    (sreq : Option CompletionRequest) : TurnOutput :=
  { response_text := .str FALLBACK_TEXT,
    conversation := conv ++ [fallbackMessage],
    firstRequest := req,
    secondRequest := sreq }

/-- `get_return_status_response_with_tools` (`llm_service.py` lines
154-247): seed the history, append the user message, fetch the tool list,
call the completion service with `tools`/`tool_choice` passed, then either
answer directly, or run the tool-call loop and issue a second completion
call with no `tools` keyword; any exception inside the `try` falls back to
the fixed apology message. -/
def get_return_status_response_with_tools (env : Env)
    (chat_history : List Message) (customer_query : String) : TurnOutput :=
  let conv1 := seed chat_history ++ [userMessage customer_query]
  let openai_tools := list_tools env.mcpDiscovery
  let firstRequest : CompletionRequest :=
    { model := "openai/gpt-3.5-turbo", messages := conv1, max_tokens := 1000,
      tools := some openai_tools, tool_choice := some "auto" }
  match env.firstCompletion with
  | .exn _ => fallbackTurn conv1 firstRequest none
  | .errorField _ => fallbackTurn conv1 firstRequest none
  | .reply assistant_message =>
    match assistant_message.tool_calls with
    | some (tc :: tcs) =>
      let conv2 := conv1 ++ [assistant_message]
      match runToolCalls env 0 conv2 (tc :: tcs) with
      | .error convSoFar => fallbackTurn convSoFar firstRequest none
      | .ok conv3 =>
        let secondRequest : CompletionRequest :=
          { model := "openai/gpt-3.5-turbo", messages := conv3, max_tokens := 1000 }
        match env.secondCompletion with
        | .reply m2 =>
            { response_text := m2.content,
              conversation := conv3 ++ [{ role := "assistant", content := m2.content }],
              firstRequest := firstRequest,
              secondRequest := some secondRequest }
        | _ => fallbackTurn conv3 firstRequest (some secondRequest)
    | _ =>
      { response_text := assistant_message.content,
        conversation := conv1 ++ [{ role := "assistant", content := assistant_message.content }],
        firstRequest := firstRequest,
        secondRequest := none }

/-- `get_return_status_response_with_history` (`llm_service.py` lines
95-152): the tool-free variant — seed, append the user message, one
completion call; a reply yields its content appended as an assistant
message, and any exception (transport failure, `"error"` field, malformed
reply) yields the fixed fallback. -/
def get_return_status_response_with_history
    (completionOutcome : CompletionOutcome)
    (chat_history : List Message) (customer_query : String) :
    JValue × List Message :=
  let conv1 := seed chat_history ++ [userMessage customer_query]
  match completionOutcome with
  | .reply m =>
      (m.content, conv1 ++ [{ role := "assistant", content := m.content }])
  | _ => (.str FALLBACK_TEXT, conv1 ++ [fallbackMessage])

/-- `true` exactly when the completion call produced a usable first-choice
message (neither raising nor returning an `"error"` dict). -/
def CompletionOutcome.isReply : CompletionOutcome → Bool
  | .reply _ => true
  | _ => false

/-- `true` when every iteration of the tool-call loop, started at call
index `i`, succeeds (arguments parse and the invocation returns normally). -/
def allCallsOk (env : Env) : Nat → List ToolCall → Bool
  | _, [] => true
  | i, tc :: rest =>
    match execCall env i tc with
    | .ok _ => allCallsOk env (i + 1) rest
    | .error _ => false

/-- The tool-result messages produced by the loop started at call index
`i`, up to (and not including) the first failing call. -/
def execMsgs (env : Env) : Nat → List ToolCall → List Message
  | _, [] => []
  | i, tc :: rest =>
    match execCall env i tc with
    | .ok m => m :: execMsgs env (i + 1) rest
    | .error _ => []

/-- The per-call correlation the transcript must satisfy: a result message
is a tool-role message carrying the id of its requested call and the name
of the invoked function. -/
def Correlated (tc : ToolCall) (m : Message) : Prop :=
  m.role = "tool" ∧ m.tool_call_id = some tc.id ∧ m.name = some tc.function.name

/-! ## Concrete fixtures used by witnesses and counterexamples -/

/-- A tool-call arguments string as the completion service sends it. -/
def sampleArgsText : String := "\x7b\"confirmation_code\": \"HR123456\"\x7d"

/-- The parsed form of `sampleArgsText`. -/
def parsedArgs : JValue := .obj [("confirmation_code", .str "HR123456")]

/-- A concrete requested tool call. -/
def sampleToolCall : ToolCall :=
  { id := "call_1",
    function := { name := "get_return_by_confirmation_code",
                  arguments := sampleArgsText } }

/-- A first-completion reply that requests exactly one tool call. -/
def toolCallReply : Message :=
  { role := "assistant", content := .null, tool_calls := some [sampleToolCall] }

/-- A well-formed `tools/list` discovery reply with one tool. -/
def discoveryBody : JValue :=
  .obj [("jsonrpc", .str "2.0"), ("id", .num 1),
        ("result", .obj [("tools", .arr
          [.obj [("name", .str "get_return_by_confirmation_code"),
                 ("description", .str "Look up a return by confirmation code"),
                 ("inputSchema", .obj [("type", .str "object")])]])])]

/-- A plain-text final completion reply. -/
def finalReply : Message :=
  { role := "assistant", content := .str "Your return was received and the refund is processing." }

/-- A turn in which the first completion requests one tool call and the
tool invocation raises a network error. -/
def envToolFail : Env :=
  { mcpDiscovery := .resp 200 discoveryBody,
    firstCompletion := .reply toolCallReply,
    jsonLoads := fun _ => .ok parsedArgs,
    toolHttp := fun _ => .exn "Connection refused",
    secondCompletion := .reply finalReply }

/-- A turn in which discovery yields a reply with no tools and the
completion replies with plain text. -/
def envNoTools : Env :=
  { mcpDiscovery := .resp 200 (.obj [("jsonrpc", .str "2.0")]),
    firstCompletion := .reply { role := "assistant", content := .str "I can only help with return status inquiries." },
    jsonLoads := fun _ => .error "unused",
    toolHttp := fun _ => .exn "unused",
    secondCompletion := .reply finalReply }

/-- A fully successful tool-call round trip. -/
def envHappy : Env :=
  { mcpDiscovery := .resp 200 discoveryBody,
    firstCompletion := .reply toolCallReply,
    jsonLoads := fun _ => .ok parsedArgs,
    toolHttp := fun _ => .resp 200 (.str "Return HR123456 was dropped off at a return bar"),
    secondCompletion := .reply finalReply }

/-- A turn in which the completion service is unreachable. -/
def envDown : Env :=
  { mcpDiscovery := .exn "Connection refused",
    firstCompletion := .exn "APIConnectionError: connection refused",
    jsonLoads := fun _ => .error "unused",
    toolHttp := fun _ => .exn "unused",
    secondCompletion := .exn "unused" }

/-- A caller-supplied system message whose content differs from the
canonical directive. -/
def staleSystemMessage : Message :=
  { role := "system", content := .str "You are a generic assistant." }

/-- The keyword arguments of the second completion call in the fully
successful fixture turn `envHappy` (seeded system message, user query,
assistant tool-call message, tool result). -/
def happySecondRequest : CompletionRequest :=
  { model := "openai/gpt-3.5-turbo",
    messages := [SYSTEM_PROMPT, userMessage "What is the status of return HR123456",
                 toolCallReply,
                 toolMessage sampleToolCall (.str "Return HR123456 was dropped off at a return bar")],
    max_tokens := 1000 }

/-! ## Helper lemmas -/

theorem getLast?_append_singleton {α : Type} (l : List α) (a : α) :
    (l ++ [a]).getLast? = some a := by
  rw [List.getLast?_append_cons]
  rfl

/-- The tool-call loop, fully characterised: it returns the entry
conversation extended by the result messages of the successful prefix of
calls, as a success when every call succeeded and as the raised-exception
path otherwise. -/
theorem runToolCalls_eq (env : Env) :
    ∀ (tcs : List ToolCall) (i : Nat) (conv : List Message),
      runToolCalls env i conv tcs =
        if allCallsOk env i tcs then Except.ok (conv ++ execMsgs env i tcs)
        else Except.error (conv ++ execMsgs env i tcs)
  | [], i, conv => by simp [runToolCalls, allCallsOk, execMsgs]
  | tc :: rest, i, conv => by
    cases hx : execCall env i tc with
    | error e =>
      simp [runToolCalls, allCallsOk, execMsgs, hx]
    | ok m =>
      rw [show runToolCalls env i conv (tc :: rest) =
            runToolCalls env (i + 1) (conv ++ [m]) rest from by
        simp [runToolCalls, hx]]
      rw [runToolCalls_eq env rest (i + 1) (conv ++ [m])]
      simp [allCallsOk, execMsgs, hx, List.append_assoc]

/-- A successful loop iteration always produces the result message built by
`toolMessage` for its requested call. -/
theorem execCall_ok_shape (env : Env) (i : Nat) (tc : ToolCall) (m : Message)
    (hx : execCall env i tc = .ok m) : ∃ r, m = toolMessage tc r := by
  simp only [execCall] at hx
  split at hx
  · exact Except.noConfusion hx
  · split at hx
    · exact Except.noConfusion hx
    · exact ⟨_, (Except.ok.injEq _ _).mp hx |>.symm⟩

/-- When every call succeeds, the produced result messages correlate with
the requested calls pointwise and in order. -/
theorem execMsgs_correlated (env : Env) :
    ∀ (tcs : List ToolCall) (i : Nat), allCallsOk env i tcs = true →
      List.Forall₂ Correlated tcs (execMsgs env i tcs)
  | [], i, _ => by simp [execMsgs]
  | tc :: rest, i, hok => by
    cases hx : execCall env i tc with
    | error e => simp [allCallsOk, hx] at hok
    | ok m =>
      have hrest : allCallsOk env (i + 1) rest = true := by
        simpa [allCallsOk, hx] using hok
      obtain ⟨r, hr⟩ := execCall_ok_shape env i tc m hx
      have hm : Correlated tc m := by
        subst hr; exact ⟨rfl, rfl, rfl⟩
      simpa [execMsgs, hx] using
        List.Forall₂.cons hm (execMsgs_correlated env rest (i + 1) hrest)

/-- Every message the loop produces is the `toolMessage` of one of the
requested calls. -/
theorem execMsgs_mem (env : Env) :
    ∀ (tcs : List ToolCall) (i : Nat) (m : Message), m ∈ execMsgs env i tcs →
      ∃ tcx ∈ tcs, ∃ r, m = toolMessage tcx r
  | [], i, m, hm => by simp [execMsgs] at hm
  | tc :: rest, i, m, hm => by
    cases hx : execCall env i tc with
    | error e => simp [execMsgs, hx] at hm
    | ok m0 =>
      rw [execMsgs, hx] at hm
      rcases List.mem_cons.mp hm with h0 | h1
      · obtain ⟨r, hr⟩ := execCall_ok_shape env i tc m0 hx
        exact ⟨tc, List.mem_cons_self tc rest, r, h0.trans hr⟩
      · obtain ⟨tcx, htcx, r, hr⟩ := execMsgs_mem env rest (i + 1) m h1
        exact ⟨tcx, List.mem_cons_of_mem tc htcx, r, hr⟩

/-- Full case analysis of one orchestrated turn: every execution path of
`get_return_status_response_with_tools` falls into exactly one of four
shapes — first completion failed; plain reply; tool round trip aborted by a
failing invocation; tool round trip completed (with the second completion
either replying or falling back). -/
theorem turn_cases (env : Env) (h : List Message) (q : String) :
    ((get_return_status_response_with_tools env h q).conversation =
        seed h ++ [userMessage q] ++ [fallbackMessage] ∧
      (get_return_status_response_with_tools env h q).response_text = .str FALLBACK_TEXT ∧
      (get_return_status_response_with_tools env h q).secondRequest = none ∧
      env.firstCompletion.isReply = false)
    ∨ (∃ am, env.firstCompletion = .reply am ∧
        (am.tool_calls = none ∨ am.tool_calls = some []) ∧
        (get_return_status_response_with_tools env h q).conversation =
          seed h ++ [userMessage q] ++ [{ role := "assistant", content := am.content }] ∧
        (get_return_status_response_with_tools env h q).response_text = am.content ∧
        (get_return_status_response_with_tools env h q).secondRequest = none)
    ∨ (∃ am tc tcs, env.firstCompletion = .reply am ∧
        am.tool_calls = some (tc :: tcs) ∧
        allCallsOk env 0 (tc :: tcs) = false ∧
        (get_return_status_response_with_tools env h q).conversation =
          seed h ++ [userMessage q] ++ [am] ++ execMsgs env 0 (tc :: tcs) ++ [fallbackMessage] ∧
        (get_return_status_response_with_tools env h q).response_text = .str FALLBACK_TEXT ∧
        (get_return_status_response_with_tools env h q).secondRequest = none)
    ∨ (∃ am tc tcs, env.firstCompletion = .reply am ∧
        am.tool_calls = some (tc :: tcs) ∧
        allCallsOk env 0 (tc :: tcs) = true ∧
        (get_return_status_response_with_tools env h q).secondRequest =
          some { model := "openai/gpt-3.5-turbo",
                 messages := seed h ++ [userMessage q] ++ [am] ++ execMsgs env 0 (tc :: tcs),
                 max_tokens := 1000 } ∧
        ((env.secondCompletion.isReply = false ∧
            (get_return_status_response_with_tools env h q).conversation =
              seed h ++ [userMessage q] ++ [am] ++ execMsgs env 0 (tc :: tcs) ++ [fallbackMessage] ∧
            (get_return_status_response_with_tools env h q).response_text = .str FALLBACK_TEXT)
          ∨ (∃ m2, env.secondCompletion = .reply m2 ∧
              (get_return_status_response_with_tools env h q).conversation =
                seed h ++ [userMessage q] ++ [am] ++ execMsgs env 0 (tc :: tcs) ++
                  [{ role := "assistant", content := m2.content }] ∧
              (get_return_status_response_with_tools env h q).response_text = m2.content))) := by
  cases hc : env.firstCompletion with
  | exn e =>
    exact Or.inl (by
      refine ⟨?_, ?_, ?_, ?_⟩ <;>
        simp [get_return_status_response_with_tools, hc, fallbackTurn,
          CompletionOutcome.isReply])
  | errorField e =>
    exact Or.inl (by
      refine ⟨?_, ?_, ?_, ?_⟩ <;>
        simp [get_return_status_response_with_tools, hc, fallbackTurn,
          CompletionOutcome.isReply])
  | reply am =>
    cases htc : am.tool_calls with
    | none =>
      exact Or.inr (Or.inl ⟨am, rfl, Or.inl htc, by
        refine ⟨?_, ?_, ?_⟩ <;>
          simp [get_return_status_response_with_tools, hc, htc]⟩)
    | some tcs0 =>
      cases tcs0 with
      | nil =>
        exact Or.inr (Or.inl ⟨am, rfl, Or.inr htc, by
          refine ⟨?_, ?_, ?_⟩ <;>
            simp [get_return_status_response_with_tools, hc, htc]⟩)
      | cons tc tcs =>
        by_cases hok : allCallsOk env 0 (tc :: tcs) = true
        · refine Or.inr (Or.inr (Or.inr ⟨am, tc, tcs, rfl, htc, hok, ?_, ?_⟩))
          · cases hs : env.secondCompletion <;>
              simp [get_return_status_response_with_tools, hc, htc,
                runToolCalls_eq, hok, hs, fallbackTurn]
          · cases hs : env.secondCompletion with
            | exn e2 =>
              refine Or.inl ⟨rfl, ?_, ?_⟩ <;>
                simp [get_return_status_response_with_tools, hc, htc,
                  runToolCalls_eq, hok, hs, fallbackTurn]
            | errorField e2 =>
              refine Or.inl ⟨rfl, ?_, ?_⟩ <;>
                simp [get_return_status_response_with_tools, hc, htc,
                  runToolCalls_eq, hok, hs, fallbackTurn]
            | reply m2 =>
              refine Or.inr ⟨m2, rfl, ?_, ?_⟩ <;>
                simp [get_return_status_response_with_tools, hc, htc,
                  runToolCalls_eq, hok, hs]
        · rw [Bool.not_eq_true] at hok
          refine Or.inr (Or.inr (Or.inl ⟨am, tc, tcs, rfl, htc, hok, ?_, ?_, ?_⟩)) <;>
            simp [get_return_status_response_with_tools, hc, htc,
              runToolCalls_eq, hok, fallbackTurn]

/-- Seeding a history that already starts with the canonical system
message leaves it unchanged. -/
theorem seed_system_prompt_cons (rest : List Message) :
    seed (SYSTEM_PROMPT :: rest) = SYSTEM_PROMPT :: rest := by
  have hrole : SYSTEM_PROMPT.role = "system" := rfl
  simp [seed, hrole]

/-! ## Claims -/

/-- **C9** — For every history `h`, seeding is idempotent
(`seed (seed h) = seed h`), the first message of `seed h` is a system
message carrying the canonical directive content, and a leading system
message with different content is replaced by the canonical one.  (The
source operates on `list(chat_history)`, so the caller's list is never
mutated; the embedding is accordingly a pure function.) -/
theorem seed_idempotent_and_canonical (h : List Message) :
    seed (seed h) = seed h ∧
    (∃ m rest, seed h = m :: rest ∧ m.role = "system" ∧
      m.content = SYSTEM_PROMPT.content) ∧
    (∀ m rest, h = m :: rest → m.role = "system" →
      m.content ≠ SYSTEM_PROMPT.content → seed h = SYSTEM_PROMPT :: rest) := by
  refine ⟨?_, ?_, ?_⟩
  · match h with
    | [] => exact seed_system_prompt_cons []
    | m :: rest =>
      by_cases h1 : m.role = "system"
      · by_cases h2 : m.content = SYSTEM_PROMPT.content
        · have hstep : seed (m :: rest) = m :: rest := by simp [seed, h1, h2]
          rw [hstep, hstep]
        · have hstep : seed (m :: rest) = SYSTEM_PROMPT :: rest := by
            simp [seed, h1, h2]
          rw [hstep, seed_system_prompt_cons]
      · have hstep : seed (m :: rest) = SYSTEM_PROMPT :: m :: rest := by
          simp [seed, h1]
        rw [hstep, seed_system_prompt_cons]
  · match h with
    | [] => exact ⟨SYSTEM_PROMPT, [], rfl, rfl, rfl⟩
    | m :: rest =>
      by_cases h1 : m.role = "system"
      · by_cases h2 : m.content = SYSTEM_PROMPT.content
        · exact ⟨m, rest, by simp [seed, h1, h2], h1, h2⟩
        · exact ⟨SYSTEM_PROMPT, rest, by simp [seed, h1, h2], rfl, rfl⟩
      · exact ⟨SYSTEM_PROMPT, m :: rest, by simp [seed, h1], rfl, rfl⟩
  · intro m rest heq h1 h2
    subst heq
    simp [seed, h1, h2]

/-- **C10** — On every execution path of both orchestrator functions the
returned `response_text` equals the `content` of the last message of the
returned transcript, and that last message has role `assistant`. -/
theorem response_text_is_final_assistant_content (env : Env)
    (co : CompletionOutcome) (h : List Message) (q : String) :
    (∃ m, (get_return_status_response_with_tools env h q).conversation.getLast? = some m ∧
      m.role = "assistant" ∧
      m.content = (get_return_status_response_with_tools env h q).response_text) ∧
    (∃ m, (get_return_status_response_with_history co h q).2.getLast? = some m ∧
      m.role = "assistant" ∧
      m.content = (get_return_status_response_with_history co h q).1) := by
  constructor
  · rcases turn_cases env h q with ⟨h1, h2, _, _⟩ |
      ⟨am, _, _, h1, h2, _⟩ |
      ⟨am, tc, tcs, _, _, _, h1, h2, _⟩ |
      ⟨am, tc, tcs, _, _, _, _, ⟨_, h1, h2⟩ | ⟨m2, _, h1, h2⟩⟩
    · exact ⟨fallbackMessage, by rw [h1]; exact getLast?_append_singleton _ _, rfl,
        by rw [h2]; rfl⟩
    · exact ⟨_, by rw [h1]; exact getLast?_append_singleton _ _, rfl, by rw [h2]⟩
    · exact ⟨fallbackMessage, by rw [h1]; exact getLast?_append_singleton _ _, rfl,
        by rw [h2]; rfl⟩
    · exact ⟨fallbackMessage, by rw [h1]; exact getLast?_append_singleton _ _, rfl,
        by rw [h2]; rfl⟩
    · exact ⟨_, by rw [h1]; exact getLast?_append_singleton _ _, rfl, by rw [h2]⟩
  · cases co with
    | reply m =>
      exact ⟨{ role := "assistant", content := m.content },
        by simp [get_return_status_response_with_history, getLast?_append_singleton],
        rfl, rfl⟩
    | exn e =>
      exact ⟨fallbackMessage,
        by simp [get_return_status_response_with_history, getLast?_append_singleton],
        rfl, rfl⟩
    | errorField e =>
      exact ⟨fallbackMessage,
        by simp [get_return_status_response_with_history, getLast?_append_singleton],
        rfl, rfl⟩

/-- **C5** — If the first completion call fails (the outcome is not a
usable reply: transport failure, `"error"` field, or malformed reply), the
orchestrator returns the fixed fallback string as `response_text` and the
returned transcript ends with an assistant message carrying that same
string. -/
theorem first_completion_failure_fallback (env : Env) (h : List Message)
    (q : String) (hfail : env.firstCompletion.isReply = false) :
    (get_return_status_response_with_tools env h q).response_text = .str FALLBACK_TEXT ∧
    (get_return_status_response_with_tools env h q).conversation.getLast? =
      some fallbackMessage ∧
    fallbackMessage.role = "assistant" ∧
    fallbackMessage.content = .str FALLBACK_TEXT := by
  rcases turn_cases env h q with ⟨h1, h2, _, _⟩ | ⟨am, ham, _⟩ |
    ⟨am, tc, tcs, ham, _⟩ | ⟨am, tc, tcs, ham, _⟩
  · exact ⟨h2, by rw [h1]; exact getLast?_append_singleton _ _, rfl, rfl⟩
  all_goals rw [ham] at hfail; exact absurd hfail (by simp [CompletionOutcome.isReply])

/-- Witness for C5 at a concrete unreachable completion service. -/
theorem first_completion_failure_fallback_witness :
    envDown.firstCompletion.isReply = false ∧
    ((get_return_status_response_with_tools envDown [] "Hello").response_text =
        .str FALLBACK_TEXT ∧
      (get_return_status_response_with_tools envDown [] "Hello").conversation.getLast? =
        some fallbackMessage ∧
      fallbackMessage.role = "assistant" ∧
      fallbackMessage.content = .str FALLBACK_TEXT) :=
  ⟨rfl, first_completion_failure_fallback envDown [] "Hello" rfl⟩

/-- **C8** — Whenever a second (final) completion request is issued, it is
sent with tools disabled: the `tools` keyword is not passed (and neither is
`tool_choice`), so at most one level of tool-call nesting can occur. -/
theorem second_completion_sent_without_tools (env : Env) (h : List Message)
    (q : String) (r : CompletionRequest)
    (hr : (get_return_status_response_with_tools env h q).secondRequest = some r) :
    r.tools = none ∧ r.tool_choice = none := by
  rcases turn_cases env h q with ⟨_, _, h3, _⟩ | ⟨am, _, _, _, _, h3⟩ |
    ⟨am, tc, tcs, _, _, _, _, _, h3⟩ | ⟨am, tc, tcs, _, _, _, h4, _⟩
  · rw [h3] at hr; exact Option.noConfusion hr
  · rw [h3] at hr; exact Option.noConfusion hr
  · rw [h3] at hr; exact Option.noConfusion hr
  · rw [h4] at hr
    injection hr with hr2
    rw [← hr2]
    exact ⟨rfl, rfl⟩

/-- Witness for C8 at the fully successful fixture turn. -/
theorem second_completion_sent_without_tools_witness :
    happySecondRequest.tools = none ∧ happySecondRequest.tool_choice = none :=
  second_completion_sent_without_tools envHappy []
    "What is the status of return HR123456" happySecondRequest rfl

/-- **C1 (counterexample)** — At a turn whose first reply requests one tool
call and whose invocation raises a network error, the returned transcript
contains *no* tool-role message at all, no final completion request is
issued, and the turn ends in the fallback reply: the failure is not
converted into a per-call tool-result message. -/
theorem tool_failure_not_converted_counterexample :
    envToolFail.firstCompletion = .reply toolCallReply ∧
    toolCallReply.tool_calls = some [sampleToolCall] ∧
    ((get_return_status_response_with_tools envToolFail []
        "What is the status of return HR123456").conversation.filter
      (fun m => m.role == "tool")) = [] ∧
    (get_return_status_response_with_tools envToolFail []
        "What is the status of return HR123456").secondRequest = none ∧
    (get_return_status_response_with_tools envToolFail []
        "What is the status of return HR123456").response_text = .str FALLBACK_TEXT :=
  ⟨rfl, rfl, rfl, rfl, rfl⟩

/-- **C1 (amended)** — A failure during tool invocation (network error,
provider-reported error, or arguments that fail to parse as JSON) is caught
by the turn-level handler, not per call: the loop stops at the first
failing call, only the results of the calls that succeeded before it are in
the transcript, no final completion request is issued, and the turn returns
the fixed fallback assistant message. -/
theorem tool_invocation_failure_aborts_turn (env : Env) (h : List Message)
    (q : String) (am : Message) (tc : ToolCall) (tcs : List ToolCall)
    (hreply : env.firstCompletion = .reply am)
    (htc : am.tool_calls = some (tc :: tcs))
    (hfail : allCallsOk env 0 (tc :: tcs) = false) :
    (get_return_status_response_with_tools env h q).response_text = .str FALLBACK_TEXT ∧
    (get_return_status_response_with_tools env h q).secondRequest = none ∧
    (get_return_status_response_with_tools env h q).conversation =
      seed h ++ [userMessage q] ++ [am] ++ execMsgs env 0 (tc :: tcs) ++ [fallbackMessage] ∧
    (get_return_status_response_with_tools env h q).conversation.getLast? =
      some fallbackMessage := by
  rcases turn_cases env h q with ⟨_, _, _, h4⟩ |
    ⟨am2, ham, hnc, _⟩ |
    ⟨am2, tc2, tcs2, ham, htc2, hok2, hconv, hrt, hsr⟩ |
    ⟨am2, tc2, tcs2, ham, htc2, hok2, _⟩
  · rw [hreply] at h4
    exact absurd h4 (by simp [CompletionOutcome.isReply])
  · rw [hreply] at ham
    injection ham with ham2
    subst ham2
    rw [htc] at hnc
    rcases hnc with hnc | hnc
    · exact Option.noConfusion hnc
    · exact List.noConfusion (Option.some.inj hnc)
  · rw [hreply] at ham
    injection ham with ham2
    subst ham2
    rw [htc] at htc2
    injection htc2 with htc3
    injection htc3 with htc4 htc5
    subst htc4
    subst htc5
    exact ⟨hrt, hsr, hconv, by rw [hconv]; exact getLast?_append_singleton _ _⟩
  · rw [hreply] at ham
    injection ham with ham2
    subst ham2
    rw [htc] at htc2
    injection htc2 with htc3
    injection htc3 with htc4 htc5
    subst htc4
    subst htc5
    rw [hfail] at hok2
    exact absurd hok2 (by simp)

/-- Witness for the amended C1 at the concrete failing-invocation turn. -/
theorem tool_invocation_failure_aborts_turn_witness :
    (get_return_status_response_with_tools envToolFail [] "Where is my return").response_text =
      .str FALLBACK_TEXT ∧
    (get_return_status_response_with_tools envToolFail [] "Where is my return").secondRequest =
      none ∧
    (get_return_status_response_with_tools envToolFail [] "Where is my return").conversation =
      seed [] ++ [userMessage "Where is my return"] ++ [toolCallReply] ++
        execMsgs envToolFail 0 [sampleToolCall] ++ [fallbackMessage] ∧
    (get_return_status_response_with_tools envToolFail [] "Where is my return").conversation.getLast? =
      some fallbackMessage :=
  tool_invocation_failure_aborts_turn envToolFail [] "Where is my return"
    toolCallReply sampleToolCall [] rfl rfl rfl

/-- **C2 (counterexample)** — The transcript returned for the failing-
invocation turn contains the assistant message requesting one tool call but
no message carrying that call's id: a transcript with an unpaired tool
call is returned (and it is neither the full successful transcript nor the
seeded transcript plus user message plus fallback alone). -/
theorem unpaired_tool_call_transcript_counterexample :
    (get_return_status_response_with_tools envToolFail []
        "Check return HR123456").conversation =
      [SYSTEM_PROMPT, userMessage "Check return HR123456", toolCallReply, fallbackMessage] ∧
    toolCallReply.tool_calls = some [sampleToolCall] ∧
    (([SYSTEM_PROMPT, userMessage "Check return HR123456", toolCallReply,
        fallbackMessage].filter
      (fun m => m.tool_call_id == some sampleToolCall.id)) = []) :=
  ⟨rfl, rfl, rfl⟩

/-- **C2 (amended)** — The returned transcript is the seeded transcript
plus the user message followed by: the fallback message alone (first
completion failed); a single assistant reply; or the assistant tool-call
message, the result messages of the prefix of calls that succeeded, and one
final assistant message — the fallback whenever a tool invocation failed,
in which case the remaining tool calls have no paired results. -/
theorem returned_transcript_shapes (env : Env) (h : List Message) (q : String) :
    ((get_return_status_response_with_tools env h q).conversation =
        seed h ++ [userMessage q] ++ [fallbackMessage])
    ∨ (∃ am, env.firstCompletion = .reply am ∧
        (get_return_status_response_with_tools env h q).conversation =
          seed h ++ [userMessage q] ++ [{ role := "assistant", content := am.content }])
    ∨ (∃ am tc tcs lastm, env.firstCompletion = .reply am ∧
        am.tool_calls = some (tc :: tcs) ∧
        lastm.role = "assistant" ∧
        (allCallsOk env 0 (tc :: tcs) = false → lastm = fallbackMessage) ∧
        (get_return_status_response_with_tools env h q).conversation =
          seed h ++ [userMessage q] ++ [am] ++ execMsgs env 0 (tc :: tcs) ++ [lastm]) := by
  rcases turn_cases env h q with ⟨h1, _, _, _⟩ |
    ⟨am, ham, _, hconv, _, _⟩ |
    ⟨am, tc, tcs, ham, htc, hok, hconv, _, _⟩ |
    ⟨am, tc, tcs, ham, htc, hok, _, hrest⟩
  · exact Or.inl h1
  · exact Or.inr (Or.inl ⟨am, ham, hconv⟩)
  · exact Or.inr (Or.inr ⟨am, tc, tcs, fallbackMessage, ham, htc, rfl,
      fun _ => rfl, hconv⟩)
  · rcases hrest with ⟨_, hconv, _⟩ | ⟨m2, _, hconv, _⟩
    · exact Or.inr (Or.inr ⟨am, tc, tcs, fallbackMessage, ham, htc, rfl,
        fun _ => rfl, hconv⟩)
    · refine Or.inr (Or.inr ⟨am, tc, tcs, { role := "assistant", content := m2.content },
        ham, htc, rfl, fun hfalse => ?_, hconv⟩)
      rw [hok] at hfalse
      exact absurd hfalse (by simp)

/-- **C6** — Whenever the first reply carries tool calls and every
invocation succeeds, the result messages appended to the transcript appear
contiguously right after the assistant tool-call message, in exactly the
order the calls were requested, each carrying the `tool_call_id` of its
call and the name of the invoked function. -/
theorem tool_results_in_request_order (env : Env) (h : List Message)
    (q : String) (am : Message) (tc : ToolCall) (tcs : List ToolCall)
    (hreply : env.firstCompletion = .reply am)
    (htc : am.tool_calls = some (tc :: tcs))
    (hok : allCallsOk env 0 (tc :: tcs) = true) :
    List.Forall₂ Correlated (tc :: tcs) (execMsgs env 0 (tc :: tcs)) ∧
    ∃ lastm,
      (get_return_status_response_with_tools env h q).conversation =
        seed h ++ [userMessage q] ++ [am] ++ execMsgs env 0 (tc :: tcs) ++ [lastm] := by
  refine ⟨execMsgs_correlated env (tc :: tcs) 0 hok, ?_⟩
  rcases turn_cases env h q with ⟨_, _, _, h4⟩ |
    ⟨am2, ham, hnc, _⟩ |
    ⟨am2, tc2, tcs2, ham, htc2, hok2, _⟩ |
    ⟨am2, tc2, tcs2, ham, htc2, hok2, _, hrest⟩
  · rw [hreply] at h4
    exact absurd h4 (by simp [CompletionOutcome.isReply])
  · rw [hreply] at ham
    injection ham with ham2
    subst ham2
    rw [htc] at hnc
    rcases hnc with hnc | hnc
    · exact Option.noConfusion hnc
    · exact List.noConfusion (Option.some.inj hnc)
  · rw [hreply] at ham
    injection ham with ham2
    subst ham2
    rw [htc] at htc2
    injection htc2 with htc3
    injection htc3 with htc4 htc5
    subst htc4
    subst htc5
    rw [hok] at hok2
    exact absurd hok2 (by simp)
  · rw [hreply] at ham
    injection ham with ham2
    subst ham2
    rw [htc] at htc2
    injection htc2 with htc3
    injection htc3 with htc4 htc5
    subst htc4
    subst htc5
    rcases hrest with ⟨_, hconv, _⟩ | ⟨m2, _, hconv, _⟩
    · exact ⟨fallbackMessage, hconv⟩
    · exact ⟨{ role := "assistant", content := m2.content }, hconv⟩

/-- Witness for C6 at the fully successful fixture turn. -/
theorem tool_results_in_request_order_witness :
    List.Forall₂ Correlated [sampleToolCall] (execMsgs envHappy 0 [sampleToolCall]) ∧
    ∃ lastm,
      (get_return_status_response_with_tools envHappy [] "Check HR123456 please").conversation =
        seed [] ++ [userMessage "Check HR123456 please"] ++ [toolCallReply] ++
          execMsgs envHappy 0 [sampleToolCall] ++ [lastm] :=
  tool_results_in_request_order envHappy [] "Check HR123456 please"
    toolCallReply sampleToolCall [] rfl rfl rfl

/-- **C7** — Whenever the first reply carries one or more tool calls, the
assistant message recording them is appended before any tool executes:
the returned transcript is the seeded base plus the user message plus that
assistant message followed by the rest of the turn, and every tool-role
message of that rest is the result message of one of the recorded calls. -/
theorem assistant_tool_call_message_precedes_results (env : Env)
    (h : List Message) (q : String) (am : Message) (tc : ToolCall)
    (tcs : List ToolCall)
    (hreply : env.firstCompletion = .reply am)
    (htc : am.tool_calls = some (tc :: tcs)) :
    ∃ rest,
      (get_return_status_response_with_tools env h q).conversation =
        seed h ++ [userMessage q] ++ am :: rest ∧
      ∀ m ∈ rest, m.role = "tool" →
        ∃ tcx ∈ (tc :: tcs), ∃ r, m = toolMessage tcx r := by
  rcases turn_cases env h q with ⟨_, _, _, h4⟩ |
    ⟨am2, ham, hnc, _⟩ |
    ⟨am2, tc2, tcs2, ham, htc2, hok2, hconv, _, _⟩ |
    ⟨am2, tc2, tcs2, ham, htc2, hok2, _, hrest⟩
  · rw [hreply] at h4
    exact absurd h4 (by simp [CompletionOutcome.isReply])
  · rw [hreply] at ham
    injection ham with ham2
    subst ham2
    rw [htc] at hnc
    rcases hnc with hnc | hnc
    · exact Option.noConfusion hnc
    · exact List.noConfusion (Option.some.inj hnc)
  · rw [hreply] at ham
    injection ham with ham2
    subst ham2
    rw [htc] at htc2
    injection htc2 with htc3
    injection htc3 with htc4 htc5
    subst htc4
    subst htc5
    refine ⟨execMsgs env 0 (tc :: tcs) ++ [fallbackMessage], ?_, ?_⟩
    · rw [hconv]; simp
    · intro m hm hrole
      rcases List.mem_append.mp hm with hm | hm
      · exact execMsgs_mem env (tc :: tcs) 0 m hm
      · rw [List.mem_singleton.mp hm] at hrole
        exact absurd hrole (by simp [fallbackMessage])
  · rw [hreply] at ham
    injection ham with ham2
    subst ham2
    rw [htc] at htc2
    injection htc2 with htc3
    injection htc3 with htc4 htc5
    subst htc4
    subst htc5
    rcases hrest with ⟨_, hconv, _⟩ | ⟨m2, _, hconv, _⟩
    · refine ⟨execMsgs env 0 (tc :: tcs) ++ [fallbackMessage], ?_, ?_⟩
      · rw [hconv]; simp
      · intro m hm hrole
        rcases List.mem_append.mp hm with hm | hm
        · exact execMsgs_mem env (tc :: tcs) 0 m hm
        · rw [List.mem_singleton.mp hm] at hrole
          exact absurd hrole (by simp [fallbackMessage])
    · refine ⟨execMsgs env 0 (tc :: tcs) ++
        [{ role := "assistant", content := m2.content }], ?_, ?_⟩
      · rw [hconv]; simp
      · intro m hm hrole
        rcases List.mem_append.mp hm with hm | hm
        · exact execMsgs_mem env (tc :: tcs) 0 m hm
        · rw [List.mem_singleton.mp hm] at hrole
          exact absurd hrole (by simp)

/-- Witness for C7 at the failing-invocation fixture turn. -/
theorem assistant_tool_call_message_precedes_results_witness :
    ∃ rest,
      (get_return_status_response_with_tools envToolFail [] "Track HR123456").conversation =
        seed [] ++ [userMessage "Track HR123456"] ++ toolCallReply :: rest ∧
      ∀ m ∈ rest, m.role = "tool" →
        ∃ tcx ∈ [sampleToolCall], ∃ r, m = toolMessage tcx r :=
  assistant_tool_call_message_precedes_results envToolFail [] "Track HR123456"
    toolCallReply sampleToolCall [] rfl rfl

/-- **C3 (counterexample)** — On a network failure or timeout the tool
catalog resolver does not return an empty sequence: it returns the error
dictionary `{"error": str(e)}`. -/
theorem discovery_failure_not_empty_counterexample :
    list_tools (.exn "ConnectTimeout: timed out") =
      ListToolsResult.errorDict "ConnectTimeout: timed out" ∧
    list_tools (.exn "ConnectTimeout: timed out") ≠ ListToolsResult.tools [] :=
  ⟨rfl, fun hcontra => ListToolsResult.noConfusion hcontra⟩

/-- **C3 (amended)** — A *success* reply whose body lacks the expected
result/tools structure makes the resolver return the empty tool list, but
on any raised exception (network failure, timeout, non-success status) it
returns the dict `{"error": message}` instead of an empty sequence. -/
theorem discovery_outcomes_amended :
    (∀ msg, list_tools (.exn msg) = .errorDict msg) ∧
    (∀ status fs, 200 ≤ status → status < 300 →
      (fs.any (fun p => p.1 == "result")) = false →
      list_tools (.resp status (.obj fs)) = .tools []) ∧
    (∀ status fs gs, 200 ≤ status → status < 300 →
      fs.find? (fun p => p.1 == "result") = some ("result", .obj gs) →
      (gs.any (fun p => p.1 == "tools")) = false →
      list_tools (.resp status (.obj fs)) = .tools []) := by
  refine ⟨fun msg => rfl, ?_, ?_⟩
  · intro status fs h1 h2 hany
    cases fs with
    | nil =>
      simp [list_tools, raise_for_status, h1, h2,
        transform_jsonrpc_to_openrouter_tools, transformGuard, JValue.truthy]
    | cons p fs2 =>
      simp [list_tools, raise_for_status, h1, h2,
        transform_jsonrpc_to_openrouter_tools, transformGuard, JValue.truthy,
        JValue.hasKey, hany]
  · intro status fs gs h1 h2 hfind hany
    have hp : (("result", JValue.obj gs).1 == "result") = true := rfl
    have hanyr : (fs.any (fun p => p.1 == "result")) = true := by
      refine List.any_eq_true.mpr ⟨("result", JValue.obj gs), ?_, ?_⟩
      · exact List.mem_of_find?_eq_some hfind
      · exact hp
    cases fs with
    | nil => simp at hfind
    | cons p fs2 =>
      simp [list_tools, raise_for_status, h1, h2,
        transform_jsonrpc_to_openrouter_tools, transformGuard, JValue.truthy,
        JValue.hasKey, getItem, JValue.getField, hfind, hanyr, hany]

/-- **C4 (counterexample)** — When discovery yields no tools, the first
completion request still carries a `tools` field (holding the empty list);
the field is not omitted. -/
theorem tools_field_not_omitted_counterexample :
    list_tools envNoTools.mcpDiscovery = ListToolsResult.tools [] ∧
    (get_return_status_response_with_tools envNoTools [] "Tell me a joke").firstRequest.tools =
      some (ListToolsResult.tools []) ∧
    (get_return_status_response_with_tools envNoTools [] "Tell me a joke").firstRequest.tools ≠
      none :=
  ⟨rfl, rfl, fun hn => Option.noConfusion hn⟩

/-- **C4 (amended)** — The first completion request always carries the
`tools` keyword (with `tool_choice = "auto"`): its value is whatever
`list_tools` returned — the translated list, the empty list, or the error
dict — never an omitted field; and the turn always produces an output. -/
theorem tools_field_always_present (env : Env) (h : List Message) (q : String) :
    (get_return_status_response_with_tools env h q).firstRequest =
      { model := "openai/gpt-3.5-turbo", messages := seed h ++ [userMessage q],
        max_tokens := 1000, tools := some (list_tools env.mcpDiscovery),
        tool_choice := some "auto" } ∧
    (get_return_status_response_with_tools env h q).firstRequest.tools ≠ none := by
  have h1 : (get_return_status_response_with_tools env h q).firstRequest =
      { model := "openai/gpt-3.5-turbo", messages := seed h ++ [userMessage q],
        max_tokens := 1000, tools := some (list_tools env.mcpDiscovery),
        tool_choice := some "auto" } := by
    cases hc : env.firstCompletion with
    | exn e => simp [get_return_status_response_with_tools, hc, fallbackTurn]
    | errorField e => simp [get_return_status_response_with_tools, hc, fallbackTurn]
    | reply am =>
      cases htc : am.tool_calls with
      | none => simp [get_return_status_response_with_tools, hc, htc]
      | some tcs0 =>
        cases tcs0 with
        | nil => simp [get_return_status_response_with_tools, hc, htc]
        | cons tc tcs =>
          by_cases hok : allCallsOk env 0 (tc :: tcs) = true
          · cases hs : env.secondCompletion <;>
              simp [get_return_status_response_with_tools, hc, htc,
                runToolCalls_eq, hok, hs, fallbackTurn]
          · rw [Bool.not_eq_true] at hok
            simp [get_return_status_response_with_tools, hc, htc,
              runToolCalls_eq, hok, fallbackTurn]
  refine ⟨h1, ?_⟩
  rw [h1]
  simp
